import Mathlib

/-
Verification of the request-signing reverse proxy in `src/main.go`
(`aws-signing-proxy`): a shallow embedding of the signing director
(`NewSigningProxy`), its body buffering, header merging, destination
rewriting, and the startup validation in `main`, together with a model of
the AWS SigV4 signing computation the director delegates to.

Conventions of the embedding:
- Byte sequences are `List Nat` with every element `< 256` where it matters.
- Go's `http.Header` (`map[string][]string`) is an association list from
  header name to value list; Go map keys are unique, which appears here as
  a `Nodup` hypothesis on the key list.
- A request body (`io.ReadCloser`) is abstracted as the byte prefix the
  reader yields before it either ends cleanly or fails: `ioutil.ReadAll`
  returns exactly that prefix, plus an error when the read failed
  (Go's `ReadAll` contract: it returns the data read so far alongside the
  error).
- Fallible operations return `Except`.
-/

set_option autoImplicit false

/-! ## Headers (Go `http.Header`, a `map[string][]string`) -/

abbrev Header := List (String × List String)

/-- Go map assignment `h[k] = v`: replace the entry for `k` if present
(keys are unique in a Go map), otherwise add it. -/
def headerSet : Header → String → List String → Header
  | [], k, v => [(k, v)]
  | p :: rest, k, v => if p.1 = k then (k, v) :: rest else p :: headerSet rest k v

/-- Go map lookup `h[k]` (as an option). -/
def headerGet : Header → String → Option (List String)
  | [], _ => none
  | p :: rest, k => if p.1 = k then some p.2 else headerGet rest k

/-- The key list of a header map. -/
def headerKeys (h : Header) : List String := h.map (·.1)

/-- The merge loop of the director (src/main.go lines 118-120):
`for k, v := range awsReq.HTTPRequest.Header { req.Header[k] = v }`.
Go map iteration order is unspecified, but assignment per distinct key is
order-independent; the loop is a left fold of assignments. -/
def mergeHeaders (h signed : Header) : Header :=
  signed.foldl (fun acc p => headerSet acc p.1 p.2) h

@[simp] theorem headerSet_nil (k : String) (v : List String) :
    headerSet [] k v = [(k, v)] := rfl

@[simp] theorem headerSet_cons (p : String × List String) (rest : Header)
    (k : String) (v : List String) :
    headerSet (p :: rest) k v =
      if p.1 = k then (k, v) :: rest else p :: headerSet rest k v := rfl

@[simp] theorem headerGet_nil (k : String) : headerGet [] k = none := rfl

@[simp] theorem headerGet_cons (p : String × List String) (rest : Header) (k : String) :
    headerGet (p :: rest) k = if p.1 = k then some p.2 else headerGet rest k := rfl

@[simp] theorem headerKeys_nil : headerKeys [] = [] := rfl

@[simp] theorem headerKeys_cons (p : String × List String) (rest : Header) :
    headerKeys (p :: rest) = p.1 :: headerKeys rest := rfl

theorem headerGet_set_self (h : Header) (k : String) (v : List String) :
    headerGet (headerSet h k v) k = some v := by
  induction h with
  | nil => simp
  | cons p rest ih =>
    by_cases hp : p.1 = k <;> simp [hp, ih]

theorem headerGet_set_ne (h : Header) (k k' : String) (v : List String)
    (hne : k' ≠ k) : headerGet (headerSet h k v) k' = headerGet h k' := by
  have hkk : ¬ (k = k') := fun e => hne e.symm
  induction h with
  | nil => simp [hkk]
  | cons p rest ih =>
    by_cases hp : p.1 = k
    · simp [hp, hkk]
    · simp [hp, ih]

theorem headerKeys_set (h : Header) (k : String) (v : List String) :
    headerKeys (headerSet h k v) =
      if k ∈ headerKeys h then headerKeys h else headerKeys h ++ [k] := by
  induction h with
  | nil => simp
  | cons p rest ih =>
    by_cases hp : p.1 = k
    · subst hp
      simp
    · have hp2 : ¬ k = p.1 := fun e => hp e.symm
      by_cases hm : k ∈ headerKeys rest
      · simp [hp, hp2, hm] at ih ⊢
        simp [ih]
      · simp [hp, hp2, hm] at ih ⊢
        simp [ih]

theorem headerKeys_set_nodup (h : Header) (k : String) (v : List String)
    (hh : (headerKeys h).Nodup) : (headerKeys (headerSet h k v)).Nodup := by
  rw [headerKeys_set]
  by_cases hm : k ∈ headerKeys h
  · simpa [hm] using hh
  · simp only [hm, if_false]
    simpa [List.nodup_append] using ⟨hh, hm⟩

theorem mergeHeaders_nil (h : Header) : mergeHeaders h [] = h := rfl

theorem mergeHeaders_cons (h : Header) (p : String × List String) (s : Header) :
    mergeHeaders h (p :: s) = mergeHeaders (headerSet h p.1 p.2) s := rfl

theorem mergeHeaders_get_not_mem (h s : Header) (k : String)
    (hk : k ∉ headerKeys s) : headerGet (mergeHeaders h s) k = headerGet h k := by
  induction s generalizing h with
  | nil => rfl
  | cons p rest ih =>
    have hk1 : k ≠ p.1 := by
      intro e; exact hk (by simp [headerKeys, e])
    have hk2 : k ∉ headerKeys rest := by
      intro m; exact hk (by simp [headerKeys] at m ⊢; exact Or.inr m)
    rw [mergeHeaders_cons, ih _ hk2, headerGet_set_ne _ _ _ _ hk1]

theorem mergeHeaders_get_mem (h s : Header) (k : String)
    (hs : (headerKeys s).Nodup) (hk : k ∈ headerKeys s) :
    headerGet (mergeHeaders h s) k = headerGet s k := by
  induction s generalizing h with
  | nil => simp at hk
  | cons p rest ih =>
    rw [headerKeys_cons] at hs hk
    have h1 : p.1 ∉ headerKeys rest := (List.nodup_cons.mp hs).1
    have h2 : (headerKeys rest).Nodup := (List.nodup_cons.mp hs).2
    rw [mergeHeaders_cons]
    by_cases hkp : k = p.1
    · have hnr : k ∉ headerKeys rest := by rw [hkp]; exact h1
      rw [mergeHeaders_get_not_mem _ _ _ hnr, hkp, headerGet_set_self]
      simp
    · have hkr : k ∈ headerKeys rest := by
        rcases List.mem_cons.mp hk with e | m
        · exact absurd e hkp
        · exact m
      have hkp2 : ¬ p.1 = k := fun e => hkp e.symm
      rw [ih _ h2 hkr]
      simp [hkp2]

theorem mergeHeaders_keys_nodup (h s : Header)
    (hh : (headerKeys h).Nodup) : (headerKeys (mergeHeaders h s)).Nodup := by
  induction s generalizing h with
  | nil => exact hh
  | cons p rest ih =>
    rw [mergeHeaders_cons]
    exact ih _ (headerKeys_set_nodup _ _ _ hh)

/-! ## SHA-256 and HMAC-SHA256

The director delegates signing to the AWS SDK v4 signer
(`v4.SignSDKRequest`, src/main.go line 73), whose hash primitive is
SHA-256 (FIPS 180-4) and whose MAC is HMAC-SHA256 (RFC 2104).  Bytes and
32-bit words are `Nat` with explicit reduction modulo `2 ^ 32`. -/

def w32 (n : Nat) : Nat := n % 4294967296

def rotr32 (n x : Nat) : Nat := w32 ((x >>> n) ||| (x <<< (32 - n)))

def shaCh (x y z : Nat) : Nat := (x &&& y) ^^^ ((x ^^^ 4294967295) &&& z)

def shaMaj (x y z : Nat) : Nat := (x &&& y) ^^^ (x &&& z) ^^^ (y &&& z)

def bigSigma0 (x : Nat) : Nat := rotr32 2 x ^^^ rotr32 13 x ^^^ rotr32 22 x

def bigSigma1 (x : Nat) : Nat := rotr32 6 x ^^^ rotr32 11 x ^^^ rotr32 25 x

def smallSigma0 (x : Nat) : Nat := rotr32 7 x ^^^ rotr32 18 x ^^^ (x >>> 3)

def smallSigma1 (x : Nat) : Nat := rotr32 17 x ^^^ rotr32 19 x ^^^ (x >>> 10)

/-- The 64 SHA-256 round constants (FIPS 180-4 §4.2.2, in decimal). -/
def shaK : List Nat :=
  [1116352408, 1899447441, 3049323471, 3921009573, 961987163,
   1508970993, 2453635748, 2870763221, 3624381080, 310598401,
   607225278, 1426881987, 1925078388, 2162078206, 2614888103,
   3248222580, 3835390401, 4022224774, 264347078, 604807628,
   770255983, 1249150122, 1555081692, 1996064986, 2554220882,
   2821834349, 2952996808, 3210313671, 3336571891, 3584528711,
   113926993, 338241895, 666307205, 773529912, 1294757372,
   1396182291, 1695183700, 1986661051, 2177026350, 2456956037,
   2730485921, 2820302411, 3259730800, 3345764771, 3516065817,
   3600352804, 4094571909, 275423344, 430227734, 506948616,
   659060556, 883997877, 958139571, 1322822218, 1537002063,
   1747873779, 1955562222, 2024104815, 2227730452, 2361852424,
   2428436474, 2756734187, 3204031479, 3329325298]

/-- Big-endian byte encoding of `n` on `k` bytes. -/
def natToBytesBE : Nat → Nat → List Nat
  | 0, _ => []
  | k + 1, n => natToBytesBE k (n / 256) ++ [n % 256]

/-- SHA-256 padding: append `0x80`, zero bytes up to 56 mod 64, then the
bit length on 8 big-endian bytes. -/
def sha256pad (msg : List Nat) : List Nat :=
  msg ++ [128] ++ List.replicate ((119 - msg.length % 64) % 64) 0
      ++ natToBytesBE 8 (msg.length * 8)

/-- Group a byte list into 32-bit big-endian words. -/
def bytesToWords : List Nat → List Nat
  | a :: b :: c :: d :: rest => (((a * 256 + b) * 256 + c) * 256 + d) :: bytesToWords rest
  | _ => []

/-- Split into 64-byte blocks. -/
def chunks64 : List Nat → List (List Nat)
  | [] => []
  | a :: rest => ((a :: rest).take 64) :: chunks64 ((a :: rest).drop 64)
termination_by l => l.length
decreasing_by simp [List.length_drop]; omega

/-- One step of the message-schedule extension. -/
def schedStep (w : List Nat) : List Nat :=
  let L := w.length
  w ++ [w32 (smallSigma1 (w.getD (L - 2) 0) + w.getD (L - 7) 0
      + smallSigma0 (w.getD (L - 15) 0) + w.getD (L - 16) 0)]

/-- Extend the 16 block words to the 64-entry message schedule. -/
def schedule (w : List Nat) : List Nat :=
  (List.range 48).foldl (fun acc _ => schedStep acc) w

/-- The eight 32-bit working variables of the compression function. -/
structure SHA256State where
  a : Nat
  b : Nat
  c : Nat
  d : Nat
  e : Nat
  f : Nat
  g : Nat
  h : Nat

def sha256init : SHA256State :=
  ⟨1779033703, 3144134277, 1013904242, 2773480762,
   1359893119, 2600822924, 528734635, 1541459225⟩

/-- One compression round, fed the already-summed `K[i] + W[i]`. -/
def roundStep (s : SHA256State) (kw : Nat) : SHA256State :=
  let t1 := w32 (s.h + bigSigma1 s.e + shaCh s.e s.f s.g + kw)
  let t2 := w32 (bigSigma0 s.a + shaMaj s.a s.b s.c)
  ⟨w32 (t1 + t2), s.a, s.b, s.c, w32 (s.d + t1), s.e, s.f, s.g⟩

/-- Compress one 64-byte block into the running state. -/
def compressBlock (s : SHA256State) (block : List Nat) : SHA256State :=
  let ws := schedule (bytesToWords block)
  let kws := List.zipWith (fun k w => w32 (k + w)) shaK ws
  let t := kws.foldl roundStep s
  ⟨w32 (s.a + t.a), w32 (s.b + t.b), w32 (s.c + t.c), w32 (s.d + t.d),
   w32 (s.e + t.e), w32 (s.f + t.f), w32 (s.g + t.g), w32 (s.h + t.h)⟩

/-- SHA-256 of a byte sequence, as 32 bytes. -/
def sha256 (msg : List Nat) : List Nat :=
  let st := (chunks64 (sha256pad msg)).foldl compressBlock sha256init
  (([st.a, st.b, st.c, st.d, st.e, st.f, st.g, st.h]).map (natToBytesBE 4)).flatten

/-- HMAC-SHA256 (RFC 2104) with 64-byte block size. -/
def hmacSHA256 (key msg : List Nat) : List Nat :=
  let k0 := if 64 < key.length then sha256 key else key
  let kp := k0 ++ List.replicate (64 - k0.length) 0
  sha256 ((kp.map (fun b => b ^^^ 92)) ++ sha256 ((kp.map (fun b => b ^^^ 54)) ++ msg))

def hexDigitLower (n : Nat) : Char :=
  if n < 10 then Char.ofNat (48 + n) else Char.ofNat (87 + n)

def hexDigitUpper (n : Nat) : Char :=
  if n < 10 then Char.ofNat (48 + n) else Char.ofNat (55 + n)

/-- Lowercase hex encoding of a byte sequence. -/
def hexLower (bs : List Nat) : String :=
  String.mk (bs.flatMap (fun b => [hexDigitLower (b / 16), hexDigitLower (b % 16)]))

/-- The UTF-8 bytes of a string. -/
def strBytes (s : String) : List Nat := s.toUTF8.toList.map (·.toNat)

/-! ## SigV4 signing model

The signing computation itself lives in the AWS SDK
(`v4.SignSDKRequest`, installed as the sign handler at src/main.go
line 73), not in this repository's source.  It is modelled here from the
specification's description of `ComputeSignature` (spec §4.1). -/

/-- Insertion into a string list sorted ascending. -/
def insertStr (x : String) : List String → List String
  | [] => [x]
  | y :: ys => if x ≤ y then x :: y :: ys else y :: insertStr x ys

/-- Insertion sort of strings, ascending. -/
def sortStrings (l : List String) : List String := l.foldr insertStr []

/-- Insertion into a name-value list sorted ascending by name. -/
def insertPair (x : String × String) : List (String × String) → List (String × String)
  | [] => [x]
  | y :: ys => if x.1 ≤ y.1 then x :: y :: ys else y :: insertPair x ys

/-- Insertion sort by name, ascending. -/
def sortPairs (l : List (String × String)) : List (String × String) := l.foldr insertPair []

/-- Modelled from the spec: canonical headers — lower-cased names, trimmed
values (multiple values comma-joined), sorted by name, newline-joined. -/
def canonicalHeaders (hs : Header) : String :=
  String.intercalate "\n"
    ((sortPairs (hs.map (fun p =>
        (p.1.toLower, String.intercalate "," (p.2.map String.trim))))).map
      (fun p => p.1 ++ ":" ++ p.2))

/-- Modelled from the spec: the sorted, semicolon-joined list of signed
header names. -/
def signedHeadersStr (hs : Header) : String :=
  String.intercalate ";" (sortStrings (hs.map (fun p => p.1.toLower)))

/-- Modelled from the spec: canonical query string — parameters sorted,
trimmed, semicolon separators replaced by ampersands. -/
def canonicalQueryString (raw : String) : String :=
  String.intercalate "&"
    (sortStrings ((((raw.splitOn "&").flatMap (·.splitOn ";")).map String.trim).filter
      (· ≠ "")))

/-- A byte is unreserved for URI path encoding (or a path separator). -/
def isUnreservedPathByte (b : Nat) : Bool :=
  (65 ≤ b && b ≤ 90) || (97 ≤ b && b ≤ 122) || (48 ≤ b && b ≤ 57)
    || b == 45 || b == 46 || b == 95 || b == 126 || b == 47

/-- Modelled from the spec: URI encoding of the request path; unreserved
bytes and the path separator stay, all else is percent-encoded. -/
def uriEncodePath (p : String) : String :=
  String.mk ((strBytes p).flatMap (fun b =>
    if isUnreservedPathByte b then [Char.ofNat b]
    else ['%', hexDigitUpper (b / 16), hexDigitUpper (b % 16)]))

/-- The credential snapshot the signer consumes (spec §3). -/
structure CredentialSnapshot where
  accessKeyID : String
  secretAccessKey : String
  sessionToken : Option String
deriving DecidableEq

/-- Modelled from the spec: the HMAC-SHA256 signing-key chain — seed key
`"AWS4" + secret`, successively keyed by date, region, service and the
literal `"aws4_request"` (spec §4.1 step 3). -/
def deriveSigningKey (secret date region service : String) : List Nat :=
  List.foldl (fun k s => hmacSHA256 k (strBytes s))
    (strBytes ("AWS4" ++ secret)) [date, region, service, "aws4_request"]

/-- Modelled from the spec: the final signature — lowercase hex
HMAC-SHA256 of the string-to-sign under the derived key (spec §4.1
step 4). -/
def signatureV4 (secret date region service stringToSign : String) : String :=
  hexLower (hmacSHA256 (deriveSigningKey secret date region service)
    (strBytes stringToSign))

/-- Modelled from the spec: `ComputeSignature` (spec §4.1) — builds the
canonical request and string-to-sign, derives the key, and returns the
signed header set (Authorization, date header, optional session-token
header). -/
def computeSignature (method path rawQuery : String) (headers : Header)
    (payload : List Nat) (creds : CredentialSnapshot)
    (region service timestamp : String) : Header :=
  let date := timestamp.take 8
  let scope := date ++ "/" ++ region ++ "/" ++ service ++ "/aws4_request"
  let shl := signedHeadersStr headers
  let canonicalRequest := String.intercalate "\n"
    [method, uriEncodePath path, canonicalQueryString rawQuery,
     canonicalHeaders headers, shl, hexLower (sha256 payload)]
  let sts := String.intercalate "\n"
    ["AWS4-HMAC-SHA256", timestamp, scope,
     hexLower (sha256 (strBytes canonicalRequest))]
  let sig := signatureV4 creds.secretAccessKey date region service sts
  let auth := "AWS4-HMAC-SHA256 Credential=" ++ creds.accessKeyID ++ "/" ++ scope
      ++ ", SignedHeaders=" ++ shl ++ ", Signature=" ++ sig
  match creds.sessionToken with
  | some t => [("Authorization", [auth]), ("X-Amz-Date", [timestamp]),
               ("X-Amz-Security-Token", [t])]
  | none => [("Authorization", [auth]), ("X-Amz-Date", [timestamp])]

/-! ## The request model and the director -/

/-- A Go `url.URL`, restricted to the fields the director touches. -/
structure URL where
  scheme : String
  host : String
  path : String
  rawQuery : String
deriving DecidableEq

/-- A request body stream (`io.ReadCloser`): the byte prefix the reader
yields, and whether the read then fails instead of reaching a clean EOF.
`ioutil.ReadAll` on such a stream returns exactly `bytes`, together with
an error when `readErr` is set (Go's `ReadAll` returns the data read so
far alongside the error). -/
structure BodyStream where
  bytes : List Nat
  readErr : Bool
deriving DecidableEq

/-- A Go `http.Request`, restricted to the fields the director touches
(`Method`, `URL`, `Host`, `Header`, `Body`; `Body == nil` is `none`). -/
structure Request where
  method : String
  url : URL
  host : String
  header : Header
  body : Option BodyStream

/-- Modelled from the spec: `v4.SignSDKRequest` as invoked on `awsReq`
(src/main.go line 113).  `awsReq.HTTPRequest` is built by `request.New`
with an empty header map; the signer first fetches credentials (failing
there leaves the request untouched), then signs over the request URL,
timestamp, session token and payload, producing the signed header set. -/
def signSDKRequest (method : String) (u : URL) (payload : List Nat)
    (creds : Except String CredentialSnapshot)
    (region service timestamp : String) : Except String Header :=
  match creds with
  | .error e => .error e
  | .ok c =>
      let hdrs : Header :=
        match c.sessionToken with
        | some t => [("host", [u.host]), ("x-amz-date", [timestamp]),
                     ("x-amz-security-token", [t])]
        | none => [("host", [u.host]), ("x-amz-date", [timestamp])]
      .ok (computeSignature method u.path u.rawQuery hdrs payload c
        region service timestamp)

/-- The arguments the director hands to the signing step. -/
structure SignCall where
  method : String
  url : URL
  payload : List Nat
  region : String
  service : String
  timestamp : String

/-- What one run of the director produces: the forwarded request, the
recorded signing call, its outcome, and which errors were logged. -/
structure DirectorResult where
  req : Request
  signCall : SignCall
  signedHeaders : Except String Header
  loggedBodyReadError : Bool
  loggedSignError : Bool

/-- The director closure of `NewSigningProxy` (src/main.go lines 50-121):
rewrite scheme/host/Host to the target, buffer the body (replacing it by
an independently readable copy and handing the buffered bytes to the
signer), sign, and merge the signed headers into the request.  `creds`
is the credential fetch outcome observed by the signer; `timestamp` is
the request time (`request.New` stamps `time.Now()`); the service name is
the constant `"es"` (src/main.go line 63). -/
def director (target : URL) (creds : Except String CredentialSnapshot)
    (region timestamp : String) (req : Request) : DirectorResult :=
  let url1 : URL :=
    { req.url with scheme := target.scheme, host := target.host }
  let req1 : Request := { req with url := url1, host := target.host }
  match req1.body with
  | none =>
      let call : SignCall := ⟨req1.method, req1.url, [], region, "es", timestamp⟩
      let signed := signSDKRequest call.method call.url call.payload creds
        call.region call.service call.timestamp
      let awsHeader : Header := match signed with
        | .ok h => h
        | .error _ => []
      { req := { req1 with header := mergeHeaders req1.header awsHeader },
        signCall := call, signedHeaders := signed,
        loggedBodyReadError := false,
        loggedSignError := match signed with | .ok _ => false | .error _ => true }
  | some bs =>
      let buf := bs.bytes
      let req2 : Request := { req1 with body := some ⟨buf, false⟩ }
      let call : SignCall := ⟨req2.method, req2.url, buf, region, "es", timestamp⟩
      let signed := signSDKRequest call.method call.url call.payload creds
        call.region call.service call.timestamp
      let awsHeader : Header := match signed with
        | .ok h => h
        | .error _ => []
      { req := { req2 with header := mergeHeaders req2.header awsHeader },
        signCall := call, signedHeaders := signed,
        loggedBodyReadError := bs.readErr,
        loggedSignError := match signed with | .ok _ => false | .error _ => true }

/-! ## Startup validation (`main`, src/main.go lines 150-209) -/

/-- The `configuration` struct of src/main.go lines 35-44. -/
structure configuration where
  target : String
  port : Int
  listenAddress : String
  region : String
  flushInterval : Int
  idleConnTimeout : Int
  dialTimeout : Int
  dialKeepAlive : Int
deriving DecidableEq

/-- The outcomes of the external collaborators `main` consults during
startup: `viper.Unmarshal` into the config struct, `url.Parse` of the
configured target, and `creds.Get()` on the default credential chain. -/
structure StartupEnv where
  unmarshal : Except String configuration
  parseTarget : Except String URL
  credsGet : Except String CredentialSnapshot

/-- What startup did: the diagnostics printed and whether
`http.ListenAndServe` was reached. -/
structure StartupResult where
  printed : List String
  listened : Bool

/-- The startup validation of `main` (src/main.go lines 169-209): bail out
printing a diagnostic on config decode failure, empty target, target URL
parse failure, or credential fetch failure, in that order; otherwise start
listening. -/
def mainStartup (env : StartupEnv) : StartupResult :=
  match env.unmarshal with
  | .error _ => ⟨["Could not decode config!"], false⟩
  | .ok cfg =>
    if cfg.target = "" then
      ⟨["No proxy target set. Please set this either in the config file or using the --target flag"], false⟩
    else
      match env.parseTarget with
      | .error e => ⟨[e], false⟩
      | .ok _ =>
        match env.credsGet with
        | .error e => ⟨[e], false⟩
        | .ok _ =>
          ⟨["Listening on " ++ cfg.listenAddress ++ ":" ++ toString cfg.port], true⟩

/-! ## Concrete inputs used by witnesses and counterexamples -/

def wTarget : URL := ⟨"https", "search.example.com", "", ""⟩

def wCreds : CredentialSnapshot :=
  ⟨"AKIDEXAMPLE", "wJalrXUtnFEMI/K7MDENG/bPxRfiCYEXAMPLEKEY", none⟩

def wInURL : URL := ⟨"http", "localhost:8080", "/_search", "q=test"⟩

def wReqBody : Request :=
  ⟨"PUT", wInURL, "localhost:8080", [("Content-Type", ["application/json"])],
   some ⟨[123, 125], false⟩⟩

def wReqNil : Request :=
  ⟨"GET", wInURL, "localhost:8080", [("Accept", ["*/*"])], none⟩

def wReqBadBody : Request :=
  ⟨"PUT", wInURL, "localhost:8080", [], some ⟨[55], true⟩⟩

/-! ## Claims -/

/-- C1: for every inbound request carrying a body whose stream yields the
byte sequence `B` (and reads cleanly), the director's buffering preserves
`B` exactly: the payload handed to the signing computation and the body
forwarded upstream are both byte-identical to `B`. -/
theorem body_buffering_preserves_bytes (target : URL)
    (creds : Except String CredentialSnapshot) (region timestamp : String)
    (req : Request) (B : List Nat) (hb : req.body = some ⟨B, false⟩) :
    (director target creds region timestamp req).signCall.payload = B ∧
    (director target creds region timestamp req).req.body = some ⟨B, false⟩ ∧
    (director target creds region timestamp req).signedHeaders =
      signSDKRequest req.method
        (director target creds region timestamp req).signCall.url B creds
        region "es" timestamp := by
  simp [director, hb]

theorem body_buffering_preserves_bytes_witness :
    (director wTarget (Except.ok wCreds) "us-east-1" "20150830T123600Z"
        wReqBody).signCall.payload = [123, 125] ∧
    (director wTarget (Except.ok wCreds) "us-east-1" "20150830T123600Z"
        wReqBody).req.body = some ⟨[123, 125], false⟩ ∧
    (director wTarget (Except.ok wCreds) "us-east-1" "20150830T123600Z"
        wReqBody).signedHeaders =
      signSDKRequest wReqBody.method
        (director wTarget (Except.ok wCreds) "us-east-1" "20150830T123600Z"
          wReqBody).signCall.url [123, 125] (Except.ok wCreds)
        "us-east-1" "es" "20150830T123600Z" :=
  body_buffering_preserves_bytes wTarget (Except.ok wCreds) "us-east-1"
    "20150830T123600Z" wReqBody [123, 125] rfl

/-- C2: the signing computation is deterministic — two invocations of
`computeSignature` on identical method, path, query, headers, payload,
credential snapshot, region, service and timestamp yield byte-identical
Authorization header values. -/
theorem computeSignature_deterministic
    (m m' p p' q q' : String) (hs hs' : Header) (b b' : List Nat)
    (c c' : CredentialSnapshot) (r r' sv sv' t t' : String)
    (e1 : m = m') (e2 : p = p') (e3 : q = q') (e4 : hs = hs') (e5 : b = b')
    (e6 : c = c') (e7 : r = r') (e8 : sv = sv') (e9 : t = t') :
    headerGet (computeSignature m p q hs b c r sv t) "Authorization" =
      headerGet (computeSignature m' p' q' hs' b' c' r' sv' t') "Authorization" := by
  subst e1 e2 e3 e4 e5 e6 e7 e8 e9
  rfl

theorem computeSignature_deterministic_witness :
    headerGet (computeSignature "GET" "/_search" "q=test"
        [("host", ["search.example.com"])] [] wCreds "us-east-1" "es"
        "20150830T123600Z") "Authorization" =
      headerGet (computeSignature "GET" "/_search" "q=test"
        [("host", ["search.example.com"])] [] wCreds "us-east-1" "es"
        "20150830T123600Z") "Authorization" :=
  computeSignature_deterministic _ _ _ _ _ _ _ _ _ _ _ _ _ _ _ _ _ _
    rfl rfl rfl rfl rfl rfl rfl rfl rfl

/-- C3: the header merge is an overwrite, never an append — for a key in
the signed set the merged map holds exactly the signed value with no
duplicate entry; keys outside the signed set are untouched. -/
theorem merge_overwrite_semantics (h s : Header) (k : String)
    (hh : (headerKeys h).Nodup) (hs : (headerKeys s).Nodup) :
    headerGet (mergeHeaders h s) k =
      (if k ∈ headerKeys s then headerGet s k else headerGet h k) ∧
    (headerKeys (mergeHeaders h s)).count k ≤ 1 := by
  constructor
  · by_cases hm : k ∈ headerKeys s
    · rw [if_pos hm]
      exact mergeHeaders_get_mem h s k hs hm
    · rw [if_neg hm]
      exact mergeHeaders_get_not_mem h s k hm
  · exact List.nodup_iff_count_le_one.mp (mergeHeaders_keys_nodup h s hh) k

theorem merge_overwrite_semantics_witness :
    (headerGet (mergeHeaders [("Host", ["a"]), ("Authorization", ["old"])]
        [("Authorization", ["new"]), ("X-Amz-Date", ["20150830T123600Z"])])
        "Authorization" =
      (if "Authorization" ∈ headerKeys
          [("Authorization", ["new"]), ("X-Amz-Date", ["20150830T123600Z"])] then
        headerGet [("Authorization", ["new"]), ("X-Amz-Date", ["20150830T123600Z"])]
          "Authorization"
      else
        headerGet [("Host", ["a"]), ("Authorization", ["old"])] "Authorization")) ∧
    (headerKeys (mergeHeaders [("Host", ["a"]), ("Authorization", ["old"])]
        [("Authorization", ["new"]), ("X-Amz-Date", ["20150830T123600Z"])])).count
      "Authorization" ≤ 1 :=
  merge_overwrite_semantics [("Host", ["a"]), ("Authorization", ["old"])]
    [("Authorization", ["new"]), ("X-Amz-Date", ["20150830T123600Z"])]
    "Authorization" (by decide) (by decide)

/-- C4: destination rewriting precedes signing — the URL the director
hands to the signing step already carries the target's scheme and host,
and the recorded signing outcome is the signature over that rewritten
authority. -/
theorem rewrite_precedes_signing (target : URL)
    (creds : Except String CredentialSnapshot) (region timestamp : String)
    (req : Request) :
    (director target creds region timestamp req).signCall.url.scheme = target.scheme ∧
    (director target creds region timestamp req).signCall.url.host = target.host ∧
    (director target creds region timestamp req).req.host = target.host ∧
    (director target creds region timestamp req).signedHeaders =
      signSDKRequest (director target creds region timestamp req).signCall.method
        (director target creds region timestamp req).signCall.url
        (director target creds region timestamp req).signCall.payload creds
        region "es" timestamp := by
  cases hb : req.body <;> simp [director, hb]

/-- C5: the signing key is derived by the fixed HMAC-SHA256 chain seeded
with `"AWS4" + secret` and successively keyed by date, region, service
and the literal `"aws4_request"`, and the final signature is the
lowercase hex HMAC-SHA256 of the string-to-sign under that key. -/
theorem signing_key_chain (secret date region service stringToSign : String) :
    signatureV4 secret date region service stringToSign =
      hexLower (hmacSHA256
        (hmacSHA256
          (hmacSHA256
            (hmacSHA256 (hmacSHA256 (strBytes ("AWS4" ++ secret)) (strBytes date))
              (strBytes region))
            (strBytes service))
          (strBytes "aws4_request"))
        (strBytes stringToSign)) := rfl

/-- C6: when the signing computation fails (the credential fetch inside
the signer errors), the error is logged and the request is still
forwarded carrying exactly the headers it had before the signing
attempt. -/
theorem sign_error_preserves_headers (target : URL) (e : String)
    (region timestamp : String) (req : Request) :
    (director target (Except.error e) region timestamp req).req.header = req.header ∧
    (director target (Except.error e) region timestamp req).loggedSignError = true := by
  cases hb : req.body <;> simp [director, hb, signSDKRequest, mergeHeaders]

/-- C7, counterexample: a body stream that yields the byte `55` and then
fails.  `ioutil.ReadAll` returns the partially read data alongside the
error, and the director uses that buffer: the read failure is logged,
but the payload handed to signing is `[55]` — not zero bytes — and the
forwarded body carries `[55]`, not an empty body. -/
theorem body_read_error_not_empty_cex :
    (director wTarget (Except.ok wCreds) "us-east-1" "20150830T123600Z"
        wReqBadBody).loggedBodyReadError = true ∧
    (director wTarget (Except.ok wCreds) "us-east-1" "20150830T123600Z"
        wReqBadBody).signCall.payload = [55] ∧
    (director wTarget (Except.ok wCreds) "us-east-1" "20150830T123600Z"
        wReqBadBody).req.body = some ⟨[55], false⟩ ∧
    [55] ≠ ([] : List Nat) :=
  ⟨rfl, rfl, rfl, by decide⟩

/-- C7, amended: on a body read failure the failure is logged and
processing continues with the partial prefix the reader yielded before
failing (empty only if the failure came before any bytes): the payload
digest is computed over that prefix and the forwarded request carries
exactly it. -/
theorem body_read_error_partial_payload (target : URL)
    (creds : Except String CredentialSnapshot) (region timestamp : String)
    (req : Request) (pre : List Nat) (hb : req.body = some ⟨pre, true⟩) :
    (director target creds region timestamp req).loggedBodyReadError = true ∧
    (director target creds region timestamp req).signCall.payload = pre ∧
    (director target creds region timestamp req).req.body = some ⟨pre, false⟩ := by
  simp [director, hb]

theorem body_read_error_partial_payload_witness :
    (director wTarget (Except.ok wCreds) "us-east-1" "20150830T123600Z"
        wReqBadBody).loggedBodyReadError = true ∧
    (director wTarget (Except.ok wCreds) "us-east-1" "20150830T123600Z"
        wReqBadBody).signCall.payload = [55] ∧
    (director wTarget (Except.ok wCreds) "us-east-1" "20150830T123600Z"
        wReqBadBody).req.body = some ⟨[55], false⟩ :=
  body_read_error_partial_payload wTarget (Except.ok wCreds) "us-east-1"
    "20150830T123600Z" wReqBadBody [55] rfl

/-- C8, counterexample: startup also aborts — without opening the
listener — when `viper.Unmarshal` cannot decode the configuration, a
fourth fatal case beyond the three the claim enumerates: here the target
URL parses and credentials are obtainable, yet the process prints the
decode diagnostic and never listens. -/
theorem startup_decode_failure_cex :
    (mainStartup ⟨Except.error "decode", Except.ok wTarget,
        Except.ok wCreds⟩).listened = false ∧
    (mainStartup ⟨Except.error "decode", Except.ok wTarget,
        Except.ok wCreds⟩).printed = ["Could not decode config!"] ∧
    (⟨Except.error "decode", Except.ok wTarget, Except.ok wCreds⟩ :
      StartupEnv).parseTarget = Except.ok wTarget ∧
    (⟨Except.error "decode", Except.ok wTarget, Except.ok wCreds⟩ :
      StartupEnv).credsGet = Except.ok wCreds :=
  ⟨rfl, rfl, rfl, rfl⟩

/-- C8, amended: startup is fatal in exactly these cases — configuration
decode failure, no target configured, target URL unparsable, or no
credentials obtainable — and whenever it is fatal a diagnostic is
printed and the listener is never opened. -/
theorem startup_fatal_cases (env : StartupEnv) :
    ((mainStartup env).listened = false ↔
      (∃ e, env.unmarshal = Except.error e) ∨
      (∃ cfg, env.unmarshal = Except.ok cfg ∧ cfg.target = "") ∨
      (∃ e, env.parseTarget = Except.error e) ∨
      (∃ e, env.credsGet = Except.error e)) ∧
    ((mainStartup env).listened = false → (mainStartup env).printed ≠ []) := by
  obtain ⟨um, pt, cg⟩ := env
  cases um with
  | error e => simp [mainStartup]
  | ok cfg =>
    by_cases ht : cfg.target = ""
    · simp [mainStartup, ht]
    · cases pt with
      | error e => simp [mainStartup, ht]
      | ok u =>
        cases cg with
        | error e => simp [mainStartup, ht]
        | ok c => simp [mainStartup, ht]

/-- C9: when the inbound request has no body, the director buffers
nothing: the signing payload is empty, the forwarded body stays absent,
and no read error is logged. -/
theorem nil_body_no_buffering (target : URL)
    (creds : Except String CredentialSnapshot) (region timestamp : String)
    (req : Request) (hb : req.body = none) :
    (director target creds region timestamp req).signCall.payload = [] ∧
    (director target creds region timestamp req).req.body = none ∧
    (director target creds region timestamp req).loggedBodyReadError = false := by
  simp [director, hb]

theorem nil_body_no_buffering_witness :
    (director wTarget (Except.ok wCreds) "us-east-1" "20150830T123600Z"
        wReqNil).signCall.payload = [] ∧
    (director wTarget (Except.ok wCreds) "us-east-1" "20150830T123600Z"
        wReqNil).req.body = none ∧
    (director wTarget (Except.ok wCreds) "us-east-1" "20150830T123600Z"
        wReqNil).loggedBodyReadError = false :=
  nil_body_no_buffering wTarget (Except.ok wCreds) "us-east-1"
    "20150830T123600Z" wReqNil rfl

/-- C10: the director leaves the request method, URL path and raw query
string unchanged; only scheme, host, Host, body and headers are
touched. -/
theorem director_frame (target : URL)
    (creds : Except String CredentialSnapshot) (region timestamp : String)
    (req : Request) :
    (director target creds region timestamp req).req.method = req.method ∧
    (director target creds region timestamp req).req.url.path = req.url.path ∧
    (director target creds region timestamp req).req.url.rawQuery = req.url.rawQuery := by
  cases hb : req.body <;> simp [director, hb]
